import Mathlib

/-!
The testingkube service: Todo CRUD over one SQLite table.

Shallow embedding of `main.go`.  The six echo handlers become pure functions
from a request view (`Context`), the table state (`DB`) and the error the
database driver reports for the statement (`none` when it executes) to a
`Response` and the table state afterwards.

What lives outside the repository and is modelled here so that the handlers
can be evaluated:

* the `todos` table (`DB`): its rows in rowid order, which is the order a
  `SELECT` without `ORDER BY` scans them in, and the `sqlite_sequence`
  counter kept for the `AUTOINCREMENT` key;
* the comparison `id = ?` of the integer key with a *text* parameter
  (`sqliteTextKey`): an integer literal is converted to that integer, every
  other text goes through the engine's floating point conversion, which is
  taken as a parameter `realAffinity`;
* `encoding/json` on the values the handlers marshal (`JSON`), including
  that a nil slice is marshalled as `null`;
* `c.Bind` on the request body (`Payload`, `Bind`).

Go's `int` is taken to be 64 bits wide, so `int(id)` on the `int64`
returned by `LastInsertId` is the identity.
-/

namespace TestingKube

/-! ## Data model -/

/-- The `Todo` struct. -/
structure Todo where
  ID : Int
  Name : String
  Description : String
  Completed : Bool
deriving DecidableEq, Repr

/-- JSON values, as produced by `encoding/json`. -/
inductive JSON where
  | null : JSON
  | bool (b : Bool) : JSON
  | number (n : Int) : JSON
  | string (s : String) : JSON
  | array (elems : List JSON) : JSON
  | object (members : List (String × JSON)) : JSON

/-- A Go slice of `α`: the nil slice, or a slice with the given elements. -/
inductive Slice (α : Type) where
  | nil : Slice α
  | mk (elems : List α) : Slice α

/-- Go's builtin `append(s, x)`: the result is never the nil slice. -/
def Slice.append {α : Type} : Slice α → α → Slice α
  | Slice.nil, x => Slice.mk [x]
  | Slice.mk xs, x => Slice.mk (xs ++ [x])

/-- The elements of a slice; the nil slice has none. -/
def Slice.toList {α : Type} : Slice α → List α
  | Slice.nil => []
  | Slice.mk xs => xs

/-- Marshalling of a `Todo`: an object with the struct's `json` tags, in field order. -/
def Todo.toJSON (t : Todo) : JSON :=
  JSON.object [("id", JSON.number t.ID), ("name", JSON.string t.Name),
    ("description", JSON.string t.Description), ("completed", JSON.bool t.Completed)]

/-- Marshalling of a `[]Todo`: the nil slice is `null`, any other slice is an array. -/
def marshalTodos : Slice Todo → JSON
  | Slice.nil => JSON.null
  | Slice.mk xs => JSON.array (xs.map Todo.toJSON)

/-- Body of an HTTP response: `c.NoContent`, `c.String` or `c.JSON`. -/
inductive Body where
  | empty : Body
  | text (s : String) : Body
  | json (v : JSON) : Body

/-- Status code and body written by a handler. -/
structure Response where
  status : Nat
  body : Body

def StatusOK : Nat := 200
def StatusCreated : Nat := 201
def StatusNoContent : Nat := 204
def StatusBadRequest : Nat := 400
def StatusNotFound : Nat := 404
def StatusInternalServerError : Nat := 500

/-! ## Integer literals -/

def MaxInt64 : Int := 9223372036854775807
def MinInt64 : Int := -9223372036854775808

/-- Value of a decimal digit character. -/
def digitVal (c : Char) : Nat := c.toNat - 48

/-- Value of a string of decimal digits, most significant first. -/
def digitsValue (cs : List Char) : Nat :=
  cs.foldl (fun acc c => 10 * acc + digitVal c) 0

/-- One or more decimal digits. -/
def parseDigits (cs : List Char) : Option Nat :=
  if cs.isEmpty then none
  else if cs.all Char.isDigit then some (digitsValue cs)
  else none

/-- An optional sign followed by one or more decimal digits. -/
def parseSigned (cs : List Char) : Option Int :=
  match cs with
  | '-' :: ds => Option.map (fun (n : Nat) => -(n : Int)) (parseDigits ds)
  | '+' :: ds => Option.map (fun (n : Nat) => (n : Int)) (parseDigits ds)
  | ds => Option.map (fun (n : Nat) => (n : Int)) (parseDigits ds)

/-- A value fits Go's `int` and SQLite's rowid (64 bits, signed). -/
def inInt64 (v : Int) : Bool := decide (MinInt64 ≤ v) && decide (v ≤ MaxInt64)

/-- Function `strconv.Atoi`: base 10, optional sign, digits only, range of `int`. -/
def Atoi (s : String) : Except String Int :=
  match parseSigned s.toList with
  | none => Except.error "invalid syntax"
  | some v => if inInt64 v then Except.ok v else Except.error "value out of range"

/-- The characters SQLite skips around a numeric literal (`sqlite3Isspace`). -/
def sqlite3Isspace (c : Char) : Bool :=
  c == ' ' || c == '\t' || c == '\n' || c == '\x0b' || c == '\x0c' || c == '\r'

/-- Text that is an integer literal denotes that integer (`sqlite3Atoi64`):
surrounding white space is skipped, the value must fit 64 bits. -/
def sqlite3Atoi64 (s : String) : Option Int :=
  let cs := ((s.toList.dropWhile sqlite3Isspace).reverse.dropWhile sqlite3Isspace).reverse
  match parseSigned cs with
  | none => none
  | some v => if inInt64 v then some v else none

/-- The integer a text parameter is compared as against the `INTEGER` key
column (numeric affinity is applied to the text): an integer literal is that
integer; any other text is converted through floating point by the engine,
`realAffinity`, and `none` is a text that equals no integer. -/
def sqliteTextKey (realAffinity : String → Option Int) (s : String) : Option Int :=
  match sqlite3Atoi64 s with
  | some v => some v
  | none => realAffinity s

/-! ## The `todos` table -/

/-- State of the table created by `createTable`: the rows in rowid order and
the largest key ever assigned (`sqlite_sequence`). -/
structure DB where
  rows : List Todo
  seq : Int

/-- The table right after `createTable` on a fresh file. -/
def DB.empty : DB := { rows := [], seq := 0 }

/-- Largest rowid in the table, if it has a row. -/
def maxRowid : List Todo → Option Int
  | [] => none
  | r :: rs =>
    match maxRowid rs with
    | none => some r.ID
    | some m => some (max r.ID m)

/-- The key `AUTOINCREMENT` gives the next row: one more than the largest of
the keys in the table and the keys ever assigned; the statement fails when
the largest key is used up. -/
def DB.newRowid (db : DB) : Except String Int :=
  match maxRowid db.rows with
  | none =>
    if db.seq = MaxInt64 then Except.error "database or disk is full"
    else Except.ok (max 1 (db.seq + 1))
  | some m =>
    if MaxInt64 ≤ m ∨ db.seq = MaxInt64 then Except.error "database or disk is full"
    else Except.ok (max (m + 1) (db.seq + 1))

/-- What `db.Exec` returns for an `INSERT`. -/
structure SQLResult where
  lastInsertId : Int

/-- Method `LastInsertId` of the driver's result: it never fails. -/
def SQLResult.LastInsertId (r : SQLResult) : Except String Int := Except.ok r.lastInsertId

/-- Statement `SELECT id, name, description, completed FROM todos`. -/
def DB.queryAll (db : DB) (fault : Option String) : Except String (List Todo) :=
  match fault with
  | some e => Except.error e
  | none => Except.ok db.rows

/-- Statement `INSERT INTO todos (name, description, completed) VALUES (?, ?, ?)`. -/
def DB.execInsert (db : DB) (fault : Option String) (name description : String)
    (completed : Bool) : Except String (SQLResult × DB) :=
  match fault with
  | some e => Except.error e
  | none =>
    match db.newRowid with
    | Except.error e => Except.error e
    | Except.ok v =>
      Except.ok ({ lastInsertId := v },
        { rows := db.rows ++ [{ ID := v, Name := name, Description := description,
                                Completed := completed }],
          seq := v })

/-- Statement `SELECT id, name, description, completed FROM todos WHERE id = ?` through
`QueryRow`: the first matching row, `none` standing for `sql.ErrNoRows`. -/
def DB.queryRowById (db : DB) (fault : Option String) (key : Option Int) :
    Except String (Option Todo) :=
  match fault with
  | some e => Except.error e
  | none => Except.ok (db.rows.find? (fun r => decide (key = some r.ID)))

/-- Statement `UPDATE todos SET name = ?, description = ?, completed = ? WHERE id = ?`. -/
def DB.execUpdate (db : DB) (fault : Option String) (name description : String)
    (completed : Bool) (id : Int) : Except String DB :=
  match fault with
  | some e => Except.error e
  | none =>
    Except.ok { db with rows := db.rows.map (fun r =>
      if r.ID = id then { r with Name := name, Description := description,
                                 Completed := completed }
      else r) }

/-- Statement `DELETE FROM todos WHERE id = ?`. -/
def DB.execDelete (db : DB) (fault : Option String) (key : Option Int) : Except String DB :=
  match fault with
  | some e => Except.error e
  | none => Except.ok { db with rows := db.rows.filter (fun r => !decide (key = some r.ID)) }

/-- Statement `UPDATE todos SET completed = ? WHERE id = ?`. -/
def DB.execUpdateCompleted (db : DB) (fault : Option String) (status : Bool)
    (key : Option Int) : Except String DB :=
  match fault with
  | some e => Except.error e
  | none =>
    Except.ok { db with rows := db.rows.map (fun r =>
      if key = some r.ID then { r with Completed := status } else r) }

/-! ## Requests -/

/-- What `c.Bind` makes of the request body: it cannot be bound (the text is
the error's message), or it is a JSON object in which each member of the
`Todo` struct is present or not (an empty body has none). -/
inductive Payload where
  | invalid (err : String) : Payload
  | fields (id : Option Int) (name description : Option String)
      (completed : Option Bool) : Payload

/-- The part of `echo.Context` the handlers read. -/
structure Context where
  id : String
  query : List (String × String)
  body : Payload

/-- Method `c.Param("id")`. -/
def Context.Param (c : Context) : String := c.id

/-- Method `c.QueryParam(name)`: the first value of the parameter, or the
empty string when the query has no such parameter. -/
def Context.QueryParam (c : Context) (name : String) : String :=
  match c.query.find? (fun kv => kv.1 == name) with
  | some kv => kv.2
  | none => ""

/-- Method `c.Bind(&todo)`: the members present in the body overwrite the
fields of `todo`, the others are left as they are.  The path and query
parameters are not bound: `Todo` has `json` tags only, and the query is only
read for GET and DELETE requests. -/
def Context.Bind (c : Context) (todo : Todo) : Except String Todo :=
  match c.body with
  | Payload.invalid err => Except.error err
  | Payload.fields id name description completed =>
    Except.ok { ID := id.getD todo.ID, Name := name.getD todo.Name,
                Description := description.getD todo.Description,
                Completed := completed.getD todo.Completed }

/-- The zero value a `var todo Todo` declaration starts from. -/
def Todo.zero : Todo := { ID := 0, Name := "", Description := "", Completed := false }

/-- The `Todo` with key `id` whose other fields are the members of a request
body, a member that is absent being the zero value of its type. -/
def Todo.ofBody (id : Int) (name description : Option String) (completed : Option Bool) :
    Todo :=
  { ID := id, Name := name.getD "", Description := description.getD "",
    Completed := completed.getD false }

/-! ## Handlers -/

/-- Handler `getTodos`. -/
def getTodos (_c : Context) (db : DB) (fault : Option String) : Response × DB :=
  match db.queryAll fault with
  | Except.error e => ({ status := StatusInternalServerError, body := Body.text e }, db)
  | Except.ok rows =>
    let todos : Slice Todo := rows.foldl (fun todos todo => todos.append todo) Slice.nil
    ({ status := StatusOK, body := Body.json (marshalTodos todos) }, db)

/-- Handler `addTodo`. -/
def addTodo (c : Context) (db : DB) (fault : Option String) : Response × DB :=
  match c.Bind Todo.zero with
  | Except.error e => ({ status := StatusBadRequest, body := Body.text e }, db)
  | Except.ok todo =>
    match db.execInsert fault todo.Name todo.Description todo.Completed with
    | Except.error e => ({ status := StatusInternalServerError, body := Body.text e }, db)
    | Except.ok (result, db') =>
      match result.LastInsertId with
      | Except.error e => ({ status := StatusInternalServerError, body := Body.text e }, db')
      | Except.ok id =>
        let todo := { todo with ID := id }
        ({ status := StatusCreated, body := Body.json todo.toJSON }, db')

/-- Handler `getTodo`. -/
def getTodo (realAffinity : String → Option Int) (c : Context) (db : DB)
    (fault : Option String) : Response × DB :=
  let id := c.Param
  match db.queryRowById fault (sqliteTextKey realAffinity id) with
  | Except.error e => ({ status := StatusInternalServerError, body := Body.text e }, db)
  | Except.ok none =>
    ({ status := StatusNotFound,
       body := Body.json (JSON.object [("message", JSON.string "Todo not found")]) }, db)
  | Except.ok (some todo) => ({ status := StatusOK, body := Body.json todo.toJSON }, db)

/-- Handler `updateTodo`. -/
def updateTodo (c : Context) (db : DB) (fault : Option String) : Response × DB :=
  let id := c.Param
  match c.Bind Todo.zero with
  | Except.error e => ({ status := StatusBadRequest, body := Body.text e }, db)
  | Except.ok todo =>
    match Atoi id with
    | Except.error _ => ({ status := StatusBadRequest, body := Body.text "Invalid ID" }, db)
    | Except.ok idInt =>
      match db.execUpdate fault todo.Name todo.Description todo.Completed idInt with
      | Except.error e => ({ status := StatusInternalServerError, body := Body.text e }, db)
      | Except.ok db' =>
        let todo := { todo with ID := idInt }
        ({ status := StatusOK, body := Body.json todo.toJSON }, db')

/-- Handler `deleteTodo`. -/
def deleteTodo (realAffinity : String → Option Int) (c : Context) (db : DB)
    (fault : Option String) : Response × DB :=
  let id := c.Param
  match db.execDelete fault (sqliteTextKey realAffinity id) with
  | Except.error e => ({ status := StatusInternalServerError, body := Body.text e }, db)
  | Except.ok db' => ({ status := StatusNoContent, body := Body.empty }, db')

/-- Handler `updateTodoStatus`.  The `echo.Map` is marshalled with its keys sorted. -/
def updateTodoStatus (realAffinity : String → Option Int) (c : Context) (db : DB)
    (fault : Option String) : Response × DB :=
  let id := c.Param
  let completed := c.QueryParam "completed"
  let status := completed == "true"
  match db.execUpdateCompleted fault status (sqliteTextKey realAffinity id) with
  | Except.error e => ({ status := StatusInternalServerError, body := Body.text e }, db)
  | Except.ok db' =>
    ({ status := StatusOK,
       body := Body.json (JSON.object [("completed", JSON.bool status),
                                       ("id", JSON.string id)]) }, db')

/-! ## Notions the properties are stated with -/

/-- Character of the decimal digit `d`. -/
def digitChar (d : Nat) : Char := Char.ofNat (48 + d)

/-- Decimal rendering of a natural number, most significant digit first. -/
def decimalNat (n : Nat) : List Char :=
  if n = 0 then ['0'] else (Nat.digits 10 n).reverse.map digitChar

/-- Decimal rendering of an integer, the way a client writes an id it has
received into the path of a request. -/
def decimal (v : Int) : String :=
  match v with
  | Int.ofNat n => String.mk (decimalNat n)
  | Int.negSucc n => String.mk ('-' :: decimalNat (n + 1))

/-- Invariant of the table: the keys strictly increase along the scan (so no
two rows share one), and the keys and the key counter fit 64 bits. -/
def DB.WF (db : DB) : Prop :=
  db.rows.Pairwise (fun a b => a.ID < b.ID) ∧
  (∀ r ∈ db.rows, inInt64 r.ID = true) ∧ inInt64 db.seq = true

/-- One request of a session that changes the table, with the error the
driver reports for its statement. -/
inductive Op where
  | create (c : Context) (fault : Option String) : Op
  | update (c : Context) (fault : Option String) : Op
  | setCompleted (c : Context) (fault : Option String) : Op
  | delete (c : Context) (fault : Option String) : Op

/-- The handler the router of `main` dispatches the request to. -/
def Op.handle (realAffinity : String → Option Int) : Op → DB → Response × DB
  | Op.create c fault, db => addTodo c db fault
  | Op.update c fault, db => updateTodo c db fault
  | Op.setCompleted c fault, db => updateTodoStatus realAffinity c db fault
  | Op.delete c fault, db => deleteTodo realAffinity c db fault

/-- The status with which the handler of the request reports success. -/
def Op.successStatus : Op → Nat
  | Op.create _ _ => 201
  | Op.update _ _ => 200
  | Op.setCompleted _ _ => 200
  | Op.delete _ _ => 204

/-- The member `id` of an answer that is a JSON object starting with it. -/
def Response.todoId? (a : Response) : Option Int :=
  match a.body with
  | Body.json (JSON.object ((key, JSON.number n) :: _)) => if key = "id" then some n else none
  | _ => none

/-- What the specification says the listing is, written from its words and
not from the table: the Todos created and not deleted since, in the order of
their creation, each with its current values.  A successful create adds the
Todo of the body under the id the answer reports; an update gives the Todo
whose id the path id reads as the body's name, description and completed; a
set-completed sets the flag of the Todo the path id denotes; a delete removes
that Todo. -/
def ledgerStep (realAffinity : String → Option Int) (op : Op) (answer : Response)
    (ledger : List Todo) : List Todo :=
  match op with
  | Op.create c _ =>
    match c.body, answer.todoId? with
    | Payload.fields _ name description completed, some n =>
      ledger ++ [Todo.ofBody n name description completed]
    | _, _ => ledger
  | Op.update c _ =>
    match c.body, Atoi c.id with
    | Payload.fields _ name description completed, Except.ok k =>
      ledger.map (fun t => if t.ID = k then Todo.ofBody t.ID name description completed else t)
    | _, _ => ledger
  | Op.setCompleted c _ =>
    ledger.map (fun t =>
      if sqliteTextKey realAffinity c.id = some t.ID
      then { t with Completed := decide (c.QueryParam "completed" = "true") }
      else t)
  | Op.delete c _ =>
    ledger.filter (fun t => decide (sqliteTextKey realAffinity c.id ≠ some t.ID))

/-- A session: the requests are handled one after the other, the table and
the specification's listing being carried along; `none` as soon as a request
does not succeed. -/
def session (realAffinity : String → Option Int) :
    List Op → DB × List Todo → Option (DB × List Todo)
  | [], st => some st
  | op :: ops, st =>
    if (op.handle realAffinity st.1).1.status = op.successStatus then
      session realAffinity ops
        ((op.handle realAffinity st.1).2,
         ledgerStep realAffinity op (op.handle realAffinity st.1).1 st.2)
    else none

/-! ## Sample data -/

/-- An engine in which only integer literals equal a key. -/
def intKeysOnly : String → Option Int := fun _ => none

/-- A table with two rows. -/
def sampleDB : DB :=
  { rows := [{ ID := 1, Name := "Buy milk", Description := "2%", Completed := false },
             { ID := 2, Name := "Walk the dog", Description := "", Completed := true }],
    seq := 2 }

/-- A request with path id `id`, the query `completed=v` and the body
`\x7b"name": "Read", "completed": true\x7d`. -/
def sampleRequest (id v : String) : Context :=
  { id := id, query := [("completed", v)],
    body := Payload.fields none (some "Read") none (some true) }

/-- A request with path id `id` whose body is the single character `\x7b`:
`c.Bind` fails on it, the text being what the error's `Error()` returns. -/
def malformedRequest (id : String) : Context :=
  { id := id, query := [],
    body := Payload.invalid "code=400, message=unexpected EOF, internal=unexpected EOF" }

/-- Two creations, then the first Todo is marked not completed and the
second one is deleted. -/
def sampleSession : List Op :=
  [Op.create (sampleRequest "" "") none, Op.create (sampleRequest "" "") none,
   Op.setCompleted (sampleRequest "1" "false") none, Op.delete (sampleRequest "2" "") none]

/-! ## Basic facts about the model -/

theorem foldl_append_toList (rows : List Todo) (s : Slice Todo) :
    (rows.foldl (fun todos todo => todos.append todo) s).toList = s.toList ++ rows := by
  induction rows generalizing s with
  | nil => simp
  | cons r rs ih =>
    rw [List.foldl_cons, ih]
    cases s <;> simp [Slice.append, Slice.toList]

theorem digit_not_space (c : Char) (h : c.isDigit = true) : sqlite3Isspace c = false := by
  cases hs : sqlite3Isspace c with
  | false => rfl
  | true =>
    simp only [sqlite3Isspace, Bool.or_eq_true, beq_iff_eq] at hs
    rcases hs with ((((h1 | h1) | h1) | h1) | h1) | h1 <;> subst h1 <;> revert h <;> decide

theorem parseDigits_some {cs : List Char} {n : Nat} (h : parseDigits cs = some n) :
    cs ≠ [] ∧ (∀ c ∈ cs, c.isDigit = true) ∧ n = digitsValue cs := by
  unfold parseDigits at h
  split at h
  · cases h
  · split at h
    · rename_i hne hall
      refine ⟨?_, ?_, ?_⟩
      · intro h0; subst h0; simp at hne
      · simpa using hall
      · cases h; rfl
    · cases h

theorem parseSigned_no_space {cs : List Char} {v : Int} (h : parseSigned cs = some v) :
    cs ≠ [] ∧ ∀ c ∈ cs, sqlite3Isspace c = false := by
  unfold parseSigned at h
  split at h
  · simp only [Option.map_eq_some'] at h
    obtain ⟨n, hn, -⟩ := h
    obtain ⟨-, hd, -⟩ := parseDigits_some hn
    refine ⟨by simp, ?_⟩
    intro c hc
    rcases List.mem_cons.mp hc with rfl | hc
    · decide
    · exact digit_not_space c (hd c hc)
  · simp only [Option.map_eq_some'] at h
    obtain ⟨n, hn, -⟩ := h
    obtain ⟨-, hd, -⟩ := parseDigits_some hn
    refine ⟨by simp, ?_⟩
    intro c hc
    rcases List.mem_cons.mp hc with rfl | hc
    · decide
    · exact digit_not_space c (hd c hc)
  · simp only [Option.map_eq_some'] at h
    obtain ⟨n, hn, -⟩ := h
    obtain ⟨hne, hd, -⟩ := parseDigits_some hn
    exact ⟨hne, fun c hc => digit_not_space c (hd c hc)⟩

theorem dropWhile_space_id {cs : List Char} (h : ∀ c ∈ cs, sqlite3Isspace c = false) :
    cs.dropWhile sqlite3Isspace = cs := by
  cases cs with
  | nil => rfl
  | cons a as => simp [List.dropWhile, h a (by simp)]

theorem trim_id {cs : List Char} (h : ∀ c ∈ cs, sqlite3Isspace c = false) :
    ((cs.dropWhile sqlite3Isspace).reverse.dropWhile sqlite3Isspace).reverse = cs := by
  have hrev : ∀ c ∈ cs.reverse, sqlite3Isspace c = false := by simpa using h
  rw [dropWhile_space_id h, dropWhile_space_id hrev]
  simp

/-- An integer literal without surrounding space that fits 64 bits. -/
theorem sqlite3Atoi64_of_parseSigned {s : String} {v : Int}
    (h : parseSigned s.toList = some v) (hr : inInt64 v = true) :
    sqlite3Atoi64 s = some v := by
  unfold sqlite3Atoi64
  simp only [trim_id (parseSigned_no_space h).2, h, hr, if_true]

theorem Atoi_ok {s : String} {k : Int} (h : Atoi s = Except.ok k) :
    parseSigned s.toList = some k ∧ inInt64 k = true := by
  unfold Atoi at h
  split at h
  · cases h
  · rename_i v hv
    split at h
    · rename_i hr
      cases h
      exact ⟨hv, hr⟩
    · cases h

/-- A path id `strconv.Atoi` reads as `k` is compared as `k` by the store. -/
theorem sqliteTextKey_of_Atoi (realAffinity : String → Option Int) {s : String} {k : Int}
    (h : Atoi s = Except.ok k) : sqliteTextKey realAffinity s = some k := by
  obtain ⟨hp, hr⟩ := Atoi_ok h
  simp [sqliteTextKey, sqlite3Atoi64_of_parseSigned hp hr]

/-! ## Decimal renderings are integer literals -/

theorem digitChar_isDigit {d : Nat} (h : d < 10) : (digitChar d).isDigit = true := by
  interval_cases d <;> decide

theorem digitVal_digitChar {d : Nat} (h : d < 10) : digitVal (digitChar d) = d := by
  interval_cases d <;> decide

theorem digitsValue_append (cs : List Char) (c : Char) :
    digitsValue (cs ++ [c]) = 10 * digitsValue cs + digitVal c := by
  simp [digitsValue, List.foldl_append]

theorem digitsValue_digits (L : List Nat) (h : ∀ d ∈ L, d < 10) :
    digitsValue (L.reverse.map digitChar) = Nat.ofDigits 10 L := by
  induction L with
  | nil => rfl
  | cons a as ih =>
    rw [List.reverse_cons, List.map_append, List.map_singleton, digitsValue_append,
      ih (fun d hd => h d (List.mem_cons_of_mem _ hd)), digitVal_digitChar (h a (by simp)),
      Nat.ofDigits_cons]
    omega

theorem decimalNat_ne_nil (n : Nat) : decimalNat n ≠ [] := by
  unfold decimalNat
  split
  · simp
  · rename_i hn
    simp only [ne_eq, List.map_eq_nil_iff, List.reverse_eq_nil_iff]
    exact fun h => hn (Nat.digits_eq_nil_iff_eq_zero.mp h)

theorem decimalNat_isDigit (n : Nat) : ∀ c ∈ decimalNat n, c.isDigit = true := by
  unfold decimalNat
  split
  · intro c hc
    simp only [List.mem_singleton] at hc
    subst hc
    decide
  · intro c hc
    simp only [List.mem_map, List.mem_reverse] at hc
    obtain ⟨d, hd, rfl⟩ := hc
    exact digitChar_isDigit (Nat.digits_lt_base (by norm_num) hd)

theorem parseDigits_decimalNat (n : Nat) : parseDigits (decimalNat n) = some n := by
  have hne := decimalNat_ne_nil n
  have hd := decimalNat_isDigit n
  unfold parseDigits
  rw [if_neg (by simpa using hne), if_pos (by simpa using hd)]
  congr 1
  unfold decimalNat
  split
  · rename_i h0; subst h0; rfl
  · rw [digitsValue_digits _ (fun d hd => Nat.digits_lt_base (by norm_num) hd),
      Nat.ofDigits_digits]

theorem parseSigned_of_digits {cs : List Char} (hne : cs ≠ [])
    (hd : ∀ c ∈ cs, c.isDigit = true) :
    parseSigned cs = Option.map (fun (n : Nat) => (n : Int)) (parseDigits cs) := by
  cases cs with
  | nil => exact absurd rfl hne
  | cons a as =>
    have ha := hd a (by simp)
    unfold parseSigned
    split
    · rename_i ds heq
      simp only [List.cons.injEq] at heq
      rw [heq.1] at ha
      exact absurd ha (by decide)
    · rename_i ds heq
      simp only [List.cons.injEq] at heq
      rw [heq.1] at ha
      exact absurd ha (by decide)
    · rfl

theorem parseSigned_decimal (v : Int) : parseSigned (decimal v).toList = some v := by
  cases v with
  | ofNat n =>
    show parseSigned (decimalNat n) = some (Int.ofNat n)
    rw [parseSigned_of_digits (decimalNat_ne_nil n) (decimalNat_isDigit n),
      parseDigits_decimalNat]
    rfl
  | negSucc n =>
    show parseSigned ('-' :: decimalNat (n + 1)) = some (Int.negSucc n)
    simp only [parseSigned, parseDigits_decimalNat, Option.map_some']
    rfl

/-- The store compares the decimal rendering of a 64 bit key as that key. -/
theorem sqliteTextKey_decimal (realAffinity : String → Option Int) {v : Int}
    (hv : inInt64 v = true) : sqliteTextKey realAffinity (decimal v) = some v := by
  simp [sqliteTextKey, sqlite3Atoi64_of_parseSigned (parseSigned_decimal v) hv]

/-! ## What a success status says about the request -/

theorem updateTodoStatus_ok {realAffinity : String → Option Int} {c : Context} {db : DB}
    {fault : Option String} (h : (updateTodoStatus realAffinity c db fault).1.status = 200) :
    fault = none := by
  cases fault with
  | none => rfl
  | some e => simp [updateTodoStatus, DB.execUpdateCompleted, StatusInternalServerError] at h

theorem deleteTodo_ok {realAffinity : String → Option Int} {c : Context} {db : DB}
    {fault : Option String} (h : (deleteTodo realAffinity c db fault).1.status = 204) :
    fault = none := by
  cases fault with
  | none => rfl
  | some e => simp [deleteTodo, DB.execDelete, StatusInternalServerError] at h

theorem updateTodo_unfold (c : Context) (db : DB) (pid : Option Int)
    (name description : Option String) (completed : Option Bool) (k : Int)
    (hb : c.body = Payload.fields pid name description completed)
    (hk : Atoi c.id = Except.ok k) :
    updateTodo c db none =
      ({ status := 200, body := Body.json (Todo.ofBody k name description completed).toJSON },
       { db with rows := db.rows.map (fun r =>
           if r.ID = k then Todo.ofBody k name description completed else r) }) := by
  simp only [updateTodo, Context.Bind, Context.Param, hb, hk, DB.execUpdate, Todo.zero,
    StatusOK, Todo.ofBody]
  refine Prod.ext rfl ?_
  simp only
  congr 1
  apply List.map_congr_left
  intro r _
  split
  · rename_i h; simp [← h]
  · rfl

theorem updateTodo_ok {c : Context} {db : DB} {fault : Option String}
    (h : (updateTodo c db fault).1.status = 200) : fault = none := by
  cases fault with
  | none => rfl
  | some e =>
    exfalso
    revert h
    unfold updateTodo
    cases c.Bind Todo.zero with
    | error e => simp [StatusBadRequest]
    | ok todo =>
      cases hk : Atoi c.Param with
      | error e => simp [hk, StatusBadRequest]
      | ok k => simp [hk, DB.execUpdate, StatusInternalServerError]

theorem addTodo_unfold (c : Context) (db : DB) (pid : Option Int)
    (name description : Option String) (completed : Option Bool) (n : Int)
    (hb : c.body = Payload.fields pid name description completed)
    (hn : db.newRowid = Except.ok n) :
    addTodo c db none =
      ({ status := 201, body := Body.json (Todo.ofBody n name description completed).toJSON },
       { rows := db.rows ++ [Todo.ofBody n name description completed], seq := n }) := by
  simp [addTodo, Context.Bind, hb, hn, DB.execInsert, SQLResult.LastInsertId, Todo.zero,
    StatusCreated, Todo.ofBody]

theorem addTodo_ok {c : Context} {db : DB} {fault : Option String}
    (h : (addTodo c db fault).1.status = 201) :
    fault = none ∧ ∃ n, db.newRowid = Except.ok n := by
  revert h
  unfold addTodo
  cases c.Bind Todo.zero with
  | error e => simp [StatusBadRequest]
  | ok todo =>
    cases fault with
    | some e => simp [DB.execInsert, StatusInternalServerError]
    | none =>
      cases hn : db.newRowid with
      | error e => simp [DB.execInsert, hn, StatusInternalServerError]
      | ok n => intro _; exact ⟨rfl, n, rfl⟩

/-- The key given to a new row is larger than every key in the table. -/
theorem maxRowid_ge {rows : List Todo} {m : Int} (h : maxRowid rows = some m) :
    ∀ r ∈ rows, r.ID ≤ m := by
  induction rows generalizing m with
  | nil => simp
  | cons a as ih =>
    intro r hr
    unfold maxRowid at h
    cases hm : maxRowid as with
    | none =>
      rw [hm] at h
      cases as with
      | nil =>
        simp only [Option.some.injEq] at h
        rcases List.mem_cons.mp hr with rfl | hr
        · omega
        · simp at hr
      | cons b bs =>
        exfalso
        unfold maxRowid at hm
        cases hq : maxRowid bs <;> rw [hq] at hm <;> simp at hm
    | some q =>
      rw [hm] at h
      simp only [Option.some.injEq] at h
      rcases List.mem_cons.mp hr with rfl | hr
      · omega
      · have := ih hm r hr
        omega

theorem newRowid_fresh {db : DB} {n : Int} (h : db.newRowid = Except.ok n) :
    ∀ r ∈ db.rows, r.ID < n := by
  intro r hr
  unfold DB.newRowid at h
  cases hm : maxRowid db.rows with
  | none =>
    cases hrows : db.rows with
    | nil => rw [hrows] at hr; simp at hr
    | cons a as =>
      rw [hrows] at hm
      unfold maxRowid at hm
      cases hq : maxRowid as <;> rw [hq] at hm <;> simp at hm
  | some m =>
    rw [hm] at h
    simp only at h
    split at h
    · cases h
    · cases h
      have := maxRowid_ge hm r hr
      omega

/-! ## Lookup by key -/

/-- In a table whose keys strictly increase, the lookup of the key of a row
finds that row. -/
theorem find_by_key {rows : List Todo} (hs : rows.Pairwise (fun a b => a.ID < b.ID))
    {r : Todo} (hr : r ∈ rows) {key : Option Int} (hk : key = some r.ID) :
    rows.find? (fun x => decide (key = some x.ID)) = some r := by
  subst hk
  induction rows with
  | nil => simp at hr
  | cons a as ih =>
    rw [List.pairwise_cons] at hs
    rcases List.mem_cons.mp hr with rfl | hr2
    · simp [List.find?_cons]
    · have hlt := hs.1 r hr2
      have hne : ¬ r.ID = a.ID := by omega
      have hd : decide (some r.ID = some a.ID) = false := by simpa using hne
      simp only [List.find?_cons, hd]
      exact ih hs.2 hr2

theorem getTodo_found (realAffinity : String → Option Int) (c : Context) (db : DB)
    {r : Todo} (hs : db.rows.Pairwise (fun a b => a.ID < b.ID)) (hr : r ∈ db.rows)
    (hk : sqliteTextKey realAffinity c.id = some r.ID) :
    (getTodo realAffinity c db none).1 = { status := 200, body := Body.json r.toJSON } := by
  simp only [getTodo, DB.queryRowById, Context.Param, find_by_key hs hr hk, StatusOK]

theorem getTodo_missing (realAffinity : String → Option Int) (c : Context) (db : DB)
    (hm : ∀ r ∈ db.rows, sqliteTextKey realAffinity c.id ≠ some r.ID) :
    (getTodo realAffinity c db none).1 =
      { status := 404,
        body := Body.json (JSON.object [("message", JSON.string "Todo not found")]) } := by
  have : db.rows.find? (fun x => decide (sqliteTextKey realAffinity c.id = some x.ID)) = none := by
    rw [List.find?_eq_none]
    intro x hx
    simpa using hm x hx
  simp only [getTodo, DB.queryRowById, Context.Param, this, StatusNotFound]

theorem maxRowid_mem {rows : List Todo} {m : Int} (h : maxRowid rows = some m) :
    ∃ r ∈ rows, r.ID = m := by
  induction rows generalizing m with
  | nil => simp [maxRowid] at h
  | cons a as ih =>
    unfold maxRowid at h
    cases hq : maxRowid as with
    | none =>
      rw [hq] at h
      simp only [Option.some.injEq] at h
      exact ⟨a, by simp, h⟩
    | some q =>
      rw [hq] at h
      simp only [Option.some.injEq] at h
      obtain ⟨r, hr, hrq⟩ := ih hq
      by_cases hle : a.ID ≤ q
      · exact ⟨r, List.mem_cons_of_mem _ hr, by omega⟩
      · exact ⟨a, by simp, by omega⟩

theorem newRowid_inInt64 {db : DB} (hwf : db.WF) {n : Int} (h : db.newRowid = Except.ok n) :
    inInt64 n = true := by
  obtain ⟨-, hrows, hseq⟩ := hwf
  simp only [inInt64, MinInt64, MaxInt64, Bool.and_eq_true, decide_eq_true_eq] at hseq hrows ⊢
  unfold DB.newRowid at h
  cases hm : maxRowid db.rows with
  | none =>
    rw [hm] at h
    simp only [MaxInt64] at h
    split at h
    · cases h
    · cases h
      omega
  | some m =>
    rw [hm] at h
    simp only [MaxInt64] at h
    split at h
    · cases h
    · cases h
      obtain ⟨r, hr, hrm⟩ := maxRowid_mem hm
      have := hrows r hr
      omega

/-! ## The invariant of the table -/

theorem DB.empty_WF : DB.empty.WF := by
  refine ⟨List.Pairwise.nil, ?_, by decide⟩
  intro r hr
  simp [DB.empty] at hr

theorem addTodo_WF (c : Context) (db : DB) (fault : Option String) (hwf : db.WF) :
    (addTodo c db fault).2.WF := by
  cases hb : c.body with
  | invalid err =>
    have : (addTodo c db fault).2 = db := by simp [addTodo, Context.Bind, hb]
    rw [this]; exact hwf
  | fields pid name description completed =>
    cases fault with
    | some e =>
      have : (addTodo c db (some e)).2 = db := by
        simp [addTodo, Context.Bind, hb, DB.execInsert]
      rw [this]; exact hwf
    | none =>
      cases hn : db.newRowid with
      | error e =>
        have : (addTodo c db none).2 = db := by
          simp [addTodo, Context.Bind, hb, DB.execInsert, hn]
        rw [this]; exact hwf
      | ok n =>
        rw [addTodo_unfold c db pid name description completed n hb hn]
        have hr := newRowid_inInt64 hwf hn
        obtain ⟨hs, hrows, -⟩ := hwf
        refine ⟨?_, ?_, hr⟩
        · simp only [List.pairwise_append, List.pairwise_singleton, List.mem_singleton, true_and]
          refine ⟨hs, ?_⟩
          intro a ha b hb2
          subst hb2
          exact newRowid_fresh hn a ha
        · intro r hmem
          rcases List.mem_append.mp hmem with h1 | h1
          · exact hrows r h1
          · simp only [List.mem_singleton] at h1
            subst h1
            exact hr

theorem map_keepID_WF {db : DB} (hwf : db.WF) (f : Todo → Todo) (hf : ∀ r, (f r).ID = r.ID) :
    DB.WF { db with rows := db.rows.map f } := by
  obtain ⟨hs, hrows, hseq⟩ := hwf
  refine ⟨?_, ?_, hseq⟩
  · simp only [List.pairwise_map, hf]
    exact hs
  · intro r hr
    simp only [List.mem_map] at hr
    obtain ⟨a, ha, rfl⟩ := hr
    rw [hf]
    exact hrows a ha

theorem updateTodo_WF (c : Context) (db : DB) (fault : Option String) (hwf : db.WF) :
    (updateTodo c db fault).2.WF := by
  cases hb : c.body with
  | invalid err =>
    have : (updateTodo c db fault).2 = db := by simp [updateTodo, Context.Bind, hb]
    rw [this]; exact hwf
  | fields pid name description completed =>
    cases hk : Atoi c.id with
    | error e =>
      have : (updateTodo c db fault).2 = db := by
        simp [updateTodo, Context.Bind, Context.Param, hb, hk]
      rw [this]; exact hwf
    | ok k =>
      cases fault with
      | some e =>
        have : (updateTodo c db (some e)).2 = db := by
          simp [updateTodo, Context.Bind, Context.Param, hb, hk, DB.execUpdate]
        rw [this]; exact hwf
      | none =>
        rw [updateTodo_unfold c db pid name description completed k hb hk]
        apply map_keepID_WF hwf
        intro r
        split
        · rename_i h; simp [Todo.ofBody, h]
        · rfl

theorem updateTodoStatus_WF (realAffinity : String → Option Int) (c : Context) (db : DB)
    (fault : Option String) (hwf : db.WF) :
    (updateTodoStatus realAffinity c db fault).2.WF := by
  cases fault with
  | some e => exact hwf
  | none =>
    simp only [updateTodoStatus, DB.execUpdateCompleted]
    apply map_keepID_WF hwf
    intro r
    split <;> rfl

theorem deleteTodo_WF (realAffinity : String → Option Int) (c : Context) (db : DB)
    (fault : Option String) (hwf : db.WF) :
    (deleteTodo realAffinity c db fault).2.WF := by
  cases fault with
  | some e => exact hwf
  | none =>
    obtain ⟨hs, hrows, hseq⟩ := hwf
    simp only [deleteTodo, DB.execDelete]
    exact ⟨hs.sublist (List.filter_sublist _),
      fun r hr => hrows r (List.mem_filter.mp hr).1, hseq⟩

/-- Every request, successful or not, leaves a table that satisfies the invariant. -/
theorem handle_WF (realAffinity : String → Option Int) (op : Op) (db : DB) (hwf : db.WF) :
    (op.handle realAffinity db).2.WF := by
  cases op with
  | create c fault => exact addTodo_WF c db fault hwf
  | update c fault => exact updateTodo_WF c db fault hwf
  | setCompleted c fault => exact updateTodoStatus_WF realAffinity c db fault hwf
  | delete c fault => exact deleteTodo_WF realAffinity c db fault hwf

/-- On a table with a row, `getTodos` answers with the array of its rows. -/
theorem getTodos_array (c : Context) (db : DB) (h : db.rows ≠ []) :
    (getTodos c db none).1 =
      { status := 200, body := Body.json (JSON.array (db.rows.map Todo.toJSON)) } := by
  have hl := foldl_append_toList db.rows Slice.nil
  simp only [getTodos, DB.queryAll, StatusOK]
  cases hf : db.rows.foldl (fun todos todo => todos.append todo) Slice.nil with
  | nil =>
    rw [hf] at hl
    simp only [Slice.toList, List.nil_append] at hl
    exact absurd hl.symm h
  | mk xs =>
    rw [hf] at hl
    simp only [Slice.toList, List.nil_append] at hl
    subst hl
    rfl

/-! ## The table follows the specification's listing -/

theorem addTodo_body {c : Context} {db : DB} {fault : Option String}
    (h : (addTodo c db fault).1.status = 201) :
    ∃ pid name description completed,
      c.body = Payload.fields pid name description completed := by
  cases hb : c.body with
  | invalid err => simp [addTodo, Context.Bind, hb, StatusBadRequest] at h
  | fields pid name description completed => exact ⟨pid, name, description, completed, rfl⟩

theorem updateTodo_body {c : Context} {db : DB} {fault : Option String}
    (h : (updateTodo c db fault).1.status = 200) :
    ∃ pid name description completed k,
      c.body = Payload.fields pid name description completed ∧ Atoi c.id = Except.ok k := by
  cases hb : c.body with
  | invalid err => simp [updateTodo, Context.Bind, hb, StatusBadRequest] at h
  | fields pid name description completed =>
    cases hk : Atoi c.id with
    | error e => simp [updateTodo, Context.Bind, Context.Param, hb, hk, StatusBadRequest] at h
    | ok k => exact ⟨pid, name, description, completed, k, rfl, rfl⟩

/-- One successful request keeps the table equal to the listing and its keys increasing. -/
theorem session_step (realAffinity : String → Option Int) (op : Op) (db : DB)
    (ledger : List Todo) (hl : db.rows = ledger)
    (hs : db.rows.Pairwise (fun a b => a.ID < b.ID))
    (h : (op.handle realAffinity db).1.status = op.successStatus) :
    (op.handle realAffinity db).2.rows =
        ledgerStep realAffinity op (op.handle realAffinity db).1 ledger ∧
      (op.handle realAffinity db).2.rows.Pairwise (fun a b => a.ID < b.ID) := by
  subst hl
  cases op with
  | create c fault =>
    simp only [Op.handle, Op.successStatus] at h ⊢
    obtain ⟨pid, name, description, completed, hb⟩ := addTodo_body h
    obtain ⟨hf, n, hn⟩ := addTodo_ok h
    subst hf
    rw [addTodo_unfold c db pid name description completed n hb hn]
    refine ⟨?_, ?_⟩
    · simp [ledgerStep, hb, Response.todoId?, Todo.toJSON, Todo.ofBody]
    · simp only [List.pairwise_append, List.pairwise_singleton, List.mem_singleton, true_and]
      refine ⟨hs, ?_⟩
      intro a ha b hb2
      subst hb2
      exact newRowid_fresh hn a ha
  | update c fault =>
    simp only [Op.handle, Op.successStatus] at h ⊢
    obtain ⟨pid, name, description, completed, k, hb, hk⟩ := updateTodo_body h
    have hf := updateTodo_ok h
    subst hf
    rw [updateTodo_unfold c db pid name description completed k hb hk]
    refine ⟨?_, ?_⟩
    · simp only [ledgerStep, hb, hk]
      apply List.map_congr_left
      intro r _
      split
      · rename_i hr; rw [hr]
      · rfl
    · simp only [List.pairwise_map]
      refine hs.imp ?_
      intro a b hab
      simp only [Todo.ofBody]
      split <;> split <;> simp_all
  | setCompleted c fault =>
    simp only [Op.handle, Op.successStatus] at h ⊢
    have hf := updateTodoStatus_ok h
    subst hf
    refine ⟨?_, ?_⟩
    · simp only [updateTodoStatus, DB.execUpdateCompleted, ledgerStep, Context.Param]
      apply List.map_congr_left
      intro r _
      rw [beq_eq_decide]
      split
      · simp
      · rfl
    · simp only [updateTodoStatus, DB.execUpdateCompleted, List.pairwise_map]
      refine hs.imp ?_
      intro a b hab
      split <;> split <;> simpa using hab
  | delete c fault =>
    simp only [Op.handle, Op.successStatus] at h ⊢
    have hf := deleteTodo_ok h
    subst hf
    refine ⟨?_, ?_⟩
    · simp only [deleteTodo, DB.execDelete, ledgerStep, Context.Param]
      apply List.filter_congr
      intro r _
      simp
    · simp only [deleteTodo, DB.execDelete]
      exact hs.sublist (List.filter_sublist _)

theorem session_invariant (realAffinity : String → Option Int) (ops : List Op)
    (st st2 : DB × List Todo) (hl : st.1.rows = st.2)
    (hs : st.1.rows.Pairwise (fun a b => a.ID < b.ID))
    (h : session realAffinity ops st = some st2) :
    st2.1.rows = st2.2 ∧ st2.1.rows.Pairwise (fun a b => a.ID < b.ID) := by
  induction ops generalizing st with
  | nil =>
    simp only [session, Option.some.injEq] at h
    subst h
    exact ⟨hl, hs⟩
  | cons op ops ih =>
    simp only [session] at h
    split at h
    · rename_i hok
      obtain ⟨h1, h2⟩ := session_step realAffinity op st.1 st.2 hl hs hok
      exact ih _ h1 h2 h
    · cases h

/-! ## The scenario of the specification -/

/-- The scenario of the specification, run on the empty table: create, get,
set-completed, delete, get. -/
theorem spec_scenario :
    (addTodo (Context.mk "" [] (Payload.fields none (some "Buy milk") (some "2%") (some false)))
      DB.empty none) =
      ({ status := 201, body := Body.json (Todo.mk 1 "Buy milk" "2%" false).toJSON },
       { rows := [Todo.mk 1 "Buy milk" "2%" false], seq := 1 }) ∧
    (getTodo intKeysOnly (Context.mk "1" [] (Payload.fields none none none none))
      { rows := [Todo.mk 1 "Buy milk" "2%" false], seq := 1 } none).1 =
      { status := 200, body := Body.json (Todo.mk 1 "Buy milk" "2%" false).toJSON } ∧
    (updateTodoStatus intKeysOnly
      (Context.mk "1" [("completed", "true")] (Payload.fields none none none none))
      { rows := [Todo.mk 1 "Buy milk" "2%" false], seq := 1 } none) =
      ({ status := 200,
         body := Body.json (JSON.object [("completed", JSON.bool true),
                                         ("id", JSON.string "1")]) },
       { rows := [Todo.mk 1 "Buy milk" "2%" true], seq := 1 }) ∧
    (deleteTodo intKeysOnly (Context.mk "1" [] (Payload.fields none none none none))
      { rows := [Todo.mk 1 "Buy milk" "2%" true], seq := 1 } none) =
      ({ status := 204, body := Body.empty }, { rows := [], seq := 1 }) ∧
    (getTodo intKeysOnly (Context.mk "1" [] (Payload.fields none none none none))
      { rows := [], seq := 1 } none).1 =
      { status := 404,
        body := Body.json (JSON.object [("message", JSON.string "Todo not found")]) } :=
  ⟨rfl, rfl, rfl, rfl, rfl⟩

/-! ## The claims -/

/-- C1: on a successful `updateTodoStatus` the boolean `completed` is true
exactly when the query parameter `completed` is the string "true" (absent
counts as ""); it is the `completed` member of the 200 response and the value
every row matching the path id holds afterwards. -/
theorem updateTodoStatus_completed_iff_true (realAffinity : String → Option Int)
    (c : Context) (db : DB) (fault : Option String)
    (h : (updateTodoStatus realAffinity c db fault).1.status = 200) :
    ∃ b : Bool, (b = true ↔ c.QueryParam "completed" = "true") ∧
      (updateTodoStatus realAffinity c db fault).1.body =
        Body.json (JSON.object [("completed", JSON.bool b), ("id", JSON.string c.id)]) ∧
      ∀ (i : Nat) (r : Todo), db.rows[i]? = some r →
        sqliteTextKey realAffinity c.id = some r.ID →
        (updateTodoStatus realAffinity c db fault).2.rows[i]? =
          some { r with Completed := b } := by
  have hf := updateTodoStatus_ok h
  subst hf
  refine ⟨c.QueryParam "completed" == "true", by simp, rfl, ?_⟩
  intro i r hi hk
  simp [updateTodoStatus, DB.execUpdateCompleted, Context.Param, hi, hk]

theorem updateTodoStatus_completed_iff_true_witness :
    (updateTodoStatus intKeysOnly (sampleRequest "1" "TRUE") sampleDB none).1.status = 200 ∧
    ∃ b : Bool, (b = true ↔ (sampleRequest "1" "TRUE").QueryParam "completed" = "true") ∧
      (updateTodoStatus intKeysOnly (sampleRequest "1" "TRUE") sampleDB none).1.body =
        Body.json (JSON.object [("completed", JSON.bool b),
          ("id", JSON.string (sampleRequest "1" "TRUE").id)]) ∧
      ∀ (i : Nat) (r : Todo), sampleDB.rows[i]? = some r →
        sqliteTextKey intKeysOnly (sampleRequest "1" "TRUE").id = some r.ID →
        (updateTodoStatus intKeysOnly (sampleRequest "1" "TRUE") sampleDB none).2.rows[i]? =
          some { r with Completed := b } :=
  ⟨by decide, updateTodoStatus_completed_iff_true intKeysOnly (sampleRequest "1" "TRUE")
    sampleDB none (by decide)⟩

/-- C10: a successful `updateTodoStatus` keeps the key counter, the number
and the order of the rows, and the id, name and description of every row;
a row whose id the path id does not match keeps its completed flag too. -/
theorem updateTodoStatus_frame (realAffinity : String → Option Int)
    (c : Context) (db : DB) (fault : Option String)
    (h : (updateTodoStatus realAffinity c db fault).1.status = 200) :
    (updateTodoStatus realAffinity c db fault).2.seq = db.seq ∧
    (updateTodoStatus realAffinity c db fault).2.rows.length = db.rows.length ∧
    ∀ (i : Nat) (r : Todo), db.rows[i]? = some r →
      ∃ r2, (updateTodoStatus realAffinity c db fault).2.rows[i]? = some r2 ∧
        r2.ID = r.ID ∧ r2.Name = r.Name ∧ r2.Description = r.Description ∧
        (sqliteTextKey realAffinity c.id ≠ some r.ID → r2 = r) := by
  have hf := updateTodoStatus_ok h
  subst hf
  refine ⟨rfl, by simp [updateTodoStatus, DB.execUpdateCompleted], ?_⟩
  intro i r hi
  simp only [updateTodoStatus, DB.execUpdateCompleted, Context.Param, List.getElem?_map, hi,
    Option.map_some']
  by_cases hk : sqliteTextKey realAffinity c.id = some r.ID
  · exact ⟨_, rfl, by simp [hk], by simp [hk], by simp [hk], fun hne => absurd hk hne⟩
  · exact ⟨_, rfl, by simp [hk], by simp [hk], by simp [hk], fun _ => by simp [hk]⟩

theorem updateTodoStatus_frame_witness :
    (updateTodoStatus intKeysOnly (sampleRequest " 2" "true") sampleDB none).1.status = 200 ∧
    (updateTodoStatus intKeysOnly (sampleRequest " 2" "true") sampleDB none).2.seq
      = sampleDB.seq ∧
    (updateTodoStatus intKeysOnly (sampleRequest " 2" "true") sampleDB none).2.rows.length
      = sampleDB.rows.length ∧
    ∀ (i : Nat) (r : Todo), sampleDB.rows[i]? = some r →
      ∃ r2, (updateTodoStatus intKeysOnly (sampleRequest " 2" "true") sampleDB none).2.rows[i]?
          = some r2 ∧
        r2.ID = r.ID ∧ r2.Name = r.Name ∧ r2.Description = r.Description ∧
        (sqliteTextKey intKeysOnly (sampleRequest " 2" "true").id ≠ some r.ID → r2 = r) :=
  ⟨by decide, updateTodoStatus_frame intKeysOnly (sampleRequest " 2" "true") sampleDB none
    (by decide)⟩

/-- C4: a successful `updateTodo` with integer path id `k` replaces every
row whose id is `k` by the row with id `k` and the body's name, description
and completed (the body's id plays no part), and leaves every other row, the
number and order of the rows and the key counter as they were. -/
theorem updateTodo_frame (c : Context) (db : DB) (fault : Option String) (k : Int)
    (pid : Option Int) (name description : Option String) (completed : Option Bool)
    (hk : Atoi c.id = Except.ok k)
    (hb : c.body = Payload.fields pid name description completed)
    (h : (updateTodo c db fault).1.status = 200) :
    (updateTodo c db fault).1.body =
        Body.json (Todo.ofBody k name description completed).toJSON ∧
    (updateTodo c db fault).2.seq = db.seq ∧
    (updateTodo c db fault).2.rows.length = db.rows.length ∧
    ∀ (i : Nat) (r : Todo), db.rows[i]? = some r →
      (updateTodo c db fault).2.rows[i]? =
        some (if r.ID = k then Todo.ofBody k name description completed else r) := by
  have hf := updateTodo_ok h
  subst hf
  rw [updateTodo_unfold c db pid name description completed k hb hk]
  refine ⟨rfl, rfl, by simp, ?_⟩
  intro i r hi
  simp [List.getElem?_map, hi]

theorem updateTodo_frame_witness :
    Atoi (sampleRequest "2" "").id = Except.ok 2 ∧
    (updateTodo (sampleRequest "2" "") sampleDB none).1.status = 200 ∧
    (updateTodo (sampleRequest "2" "") sampleDB none).1.body =
        Body.json (Todo.ofBody 2 (some "Read") none (some true)).toJSON ∧
    (updateTodo (sampleRequest "2" "") sampleDB none).2.seq = sampleDB.seq ∧
    (updateTodo (sampleRequest "2" "") sampleDB none).2.rows.length = sampleDB.rows.length ∧
    ∀ (i : Nat) (r : Todo), sampleDB.rows[i]? = some r →
      (updateTodo (sampleRequest "2" "") sampleDB none).2.rows[i]? =
        some (if r.ID = 2 then Todo.ofBody 2 (some "Read") none (some true) else r) :=
  ⟨rfl, by decide, updateTodo_frame (sampleRequest "2" "") sampleDB none 2 none (some "Read")
    none (some true) rfl rfl (by decide)⟩

/-- C5, as stated, fails: with the path id "abc" and a body that `c.Bind`
rejects, `updateTodo` answers 400 with the text of the bind error, which is
not "Invalid ID". -/
theorem updateTodo_unbound_body_text :
    Atoi (malformedRequest "abc").id = Except.error "invalid syntax" ∧
    (updateTodo (malformedRequest "abc") sampleDB none).1.status = 400 ∧
    (updateTodo (malformedRequest "abc") sampleDB none).1.body =
      Body.text "code=400, message=unexpected EOF, internal=unexpected EOF" ∧
    (updateTodo (malformedRequest "abc") sampleDB none).1.body ≠ Body.text "Invalid ID" := by
  refine ⟨rfl, rfl, rfl, ?_⟩
  simp [updateTodo, Context.Bind, malformedRequest]

/-- C5, amended: when `strconv.Atoi` rejects the path id, `updateTodo`
leaves the table as it is and answers 400; the body of the answer is the text
"Invalid ID" when the request body binds, and the text of the bind error when
it does not. -/
theorem updateTodo_invalid_id (c : Context) (db : DB) (fault : Option String) (e : String)
    (hid : Atoi c.id = Except.error e) :
    (∀ (pid : Option Int) (name description : Option String) (completed : Option Bool),
      c.body = Payload.fields pid name description completed →
      updateTodo c db fault = ({ status := 400, body := Body.text "Invalid ID" }, db)) ∧
    (∀ err : String, c.body = Payload.invalid err →
      updateTodo c db fault = ({ status := 400, body := Body.text err }, db)) := by
  constructor
  · intro pid name description completed hb
    simp [updateTodo, Context.Bind, Context.Param, hb, hid, StatusBadRequest]
  · intro err hb
    simp [updateTodo, Context.Bind, hb, StatusBadRequest]

theorem updateTodo_invalid_id_witness :
    Atoi (sampleRequest "1.0" "").id = Except.error "invalid syntax" ∧
    (∀ (pid : Option Int) (name description : Option String) (completed : Option Bool),
      (sampleRequest "1.0" "").body = Payload.fields pid name description completed →
      updateTodo (sampleRequest "1.0" "") sampleDB none =
        ({ status := 400, body := Body.text "Invalid ID" }, sampleDB)) ∧
    (∀ err : String, (sampleRequest "1.0" "").body = Payload.invalid err →
      updateTodo (sampleRequest "1.0" "") sampleDB none =
        ({ status := 400, body := Body.text err }, sampleDB)) :=
  ⟨rfl, updateTodo_invalid_id (sampleRequest "1.0" "") sampleDB none "invalid syntax" rfl⟩

/-- C6: for a path id that reads as the integer `k` and a table without a
row of id `k`, `updateTodo` answers 200 with the body's name, description and
completed and the id `k`, `deleteTodo` answers 204, and both leave the table
exactly as it was. -/
theorem update_delete_missing_id_noop (realAffinity : String → Option Int) (c : Context)
    (db : DB) (k : Int) (pid : Option Int) (name description : Option String)
    (completed : Option Bool)
    (hk : Atoi c.id = Except.ok k)
    (hb : c.body = Payload.fields pid name description completed)
    (hmiss : ∀ r ∈ db.rows, r.ID ≠ k) :
    updateTodo c db none =
      ({ status := 200, body := Body.json (Todo.ofBody k name description completed).toJSON },
       db) ∧
    deleteTodo realAffinity c db none = ({ status := 204, body := Body.empty }, db) := by
  constructor
  · rw [updateTodo_unfold c db pid name description completed k hb hk]
    refine Prod.ext rfl ?_
    cases db with
    | mk rows seq =>
      simp only [DB.mk.injEq, and_true]
      conv_rhs => rw [← List.map_id rows]
      apply List.map_congr_left
      intro r hr
      simp [hmiss r hr]
  · have hkey := sqliteTextKey_of_Atoi realAffinity hk
    simp only [deleteTodo, DB.execDelete, Context.Param, hkey, StatusNoContent]
    refine Prod.ext rfl ?_
    cases db with
    | mk rows seq =>
      simp only [DB.mk.injEq, and_true]
      apply List.filter_eq_self.mpr
      intro r hr
      have := hmiss r hr
      simp [Ne.symm this]

theorem update_delete_missing_id_noop_witness :
    Atoi (sampleRequest "7" "").id = Except.ok 7 ∧
    (∀ r ∈ sampleDB.rows, r.ID ≠ 7) ∧
    updateTodo (sampleRequest "7" "") sampleDB none =
      ({ status := 200,
         body := Body.json (Todo.ofBody 7 (some "Read") none (some true)).toJSON }, sampleDB) ∧
    deleteTodo intKeysOnly (sampleRequest "7" "") sampleDB none =
      ({ status := 204, body := Body.empty }, sampleDB) :=
  ⟨rfl, by decide, update_delete_missing_id_noop intKeysOnly (sampleRequest "7" "") sampleDB 7
    none (some "Read") none (some true) rfl rfl (by decide)⟩

/-- C8 fails on the empty table: `getTodos` marshals the nil slice it
declared, so the body of the 200 answer is the JSON value `null` and not the
empty array. -/
theorem getTodos_empty_table_null (c : Context) (seq : Int) :
    (getTodos c { rows := [], seq := seq } none).1.status = 200 ∧
    (getTodos c { rows := [], seq := seq } none).1.body = Body.json JSON.null ∧
    (getTodos c { rows := [], seq := seq } none).1.body ≠ Body.json (JSON.array []) := by
  refine ⟨rfl, rfl, ?_⟩
  simp [getTodos, DB.queryAll, marshalTodos]

/-- C9: a successful `addTodo` answers 201 with the Todo made of the key `n`
the table assigns and the body's name, description and completed (false when
absent), appends exactly that row, `n` is larger than, so different from,
the id of every row already there, and the id in the body changes nothing. -/
theorem addTodo_created (c : Context) (db : DB) (fault : Option String)
    (pid : Option Int) (name description : Option String) (completed : Option Bool)
    (hb : c.body = Payload.fields pid name description completed)
    (h : (addTodo c db fault).1.status = 201) :
    ∃ n : Int, db.newRowid = Except.ok n ∧
      (addTodo c db fault).1.body =
        Body.json (Todo.ofBody n name description completed).toJSON ∧
      (addTodo c db fault).2.rows = db.rows ++ [Todo.ofBody n name description completed] ∧
      (completed = none → (Todo.ofBody n name description completed).Completed = false) ∧
      (∀ r ∈ db.rows, r.ID < n ∧ r.ID ≠ n) ∧
      ∀ pid2 : Option Int,
        addTodo { c with body := Payload.fields pid2 name description completed } db fault =
          addTodo c db fault := by
  obtain ⟨hf, n, hn⟩ := addTodo_ok h
  subst hf
  refine ⟨n, hn, ?_, ?_, ?_, ?_, ?_⟩
  · rw [addTodo_unfold c db pid name description completed n hb hn]
  · rw [addTodo_unfold c db pid name description completed n hb hn]
  · intro hc; subst hc; rfl
  · intro r hr
    have := newRowid_fresh hn r hr
    exact ⟨this, by omega⟩
  · intro pid2
    rw [addTodo_unfold c db pid name description completed n hb hn,
      addTodo_unfold _ db pid2 name description completed n rfl hn]

theorem addTodo_created_witness :
    (addTodo (sampleRequest "" "") sampleDB none).1.status = 201 ∧
    ∃ n : Int, sampleDB.newRowid = Except.ok n ∧
      (addTodo (sampleRequest "" "") sampleDB none).1.body =
        Body.json (Todo.ofBody n (some "Read") none (some true)).toJSON ∧
      (addTodo (sampleRequest "" "") sampleDB none).2.rows =
        sampleDB.rows ++ [Todo.ofBody n (some "Read") none (some true)] ∧
      ((some true : Option Bool) = none →
        (Todo.ofBody n (some "Read") none (some true)).Completed = false) ∧
      (∀ r ∈ sampleDB.rows, r.ID < n ∧ r.ID ≠ n) ∧
      ∀ pid2 : Option Int,
        addTodo
          { (sampleRequest "" "") with body := Payload.fields pid2 (some "Read") none (some true) }
          sampleDB none = addTodo (sampleRequest "" "") sampleDB none :=
  ⟨by decide, addTodo_created (sampleRequest "" "") sampleDB none none (some "Read") none
    (some true) rfl (by decide)⟩

/-- C2: in a table satisfying its invariant, when `addTodo` answers 201
with the Todo of id `n` and the body's name, description and completed, a
`getTodo` whose path id is the decimal rendering of `n`, run on the table
`addTodo` leaves, answers 200 with that same Todo. -/
theorem addTodo_getTodo_roundtrip (realAffinity : String → Option Int) (c : Context)
    (db : DB) (fault : Option String) (pid : Option Int) (name description : Option String)
    (completed : Option Bool) (n : Int) (hwf : db.WF)
    (hb : c.body = Payload.fields pid name description completed)
    (h : (addTodo c db fault).1 =
      { status := 201, body := Body.json (Todo.ofBody n name description completed).toJSON }) :
    ∀ c2 : Context, c2.id = decimal n →
      (getTodo realAffinity c2 (addTodo c db fault).2 none).1 =
        { status := 200,
          body := Body.json (Todo.ofBody n name description completed).toJSON } := by
  have hst : (addTodo c db fault).1.status = 201 := by rw [h]
  obtain ⟨hf, m, hm⟩ := addTodo_ok hst
  subst hf
  rw [addTodo_unfold c db pid name description completed m hb hm] at h ⊢
  have hmn : m = n := by
    simp only [Todo.toJSON, Todo.ofBody, Response.mk.injEq, Body.json.injEq, JSON.object.injEq,
      List.cons.injEq, Prod.mk.injEq, JSON.number.injEq, true_and] at h
    exact h.1
  subst hmn
  intro c2 hc2
  have hkey : sqliteTextKey realAffinity c2.id = some m := by
    rw [hc2]
    exact sqliteTextKey_decimal realAffinity (newRowid_inInt64 hwf hm)
  have hfresh := newRowid_fresh hm
  simp only [getTodo, DB.queryRowById, Context.Param, hkey, List.find?_append]
  have hnone : db.rows.find? (fun r => decide (m = r.ID)) = none := by
    rw [List.find?_eq_none]
    intro x hx
    have := hfresh x hx
    simp only [decide_eq_true_eq]
    omega
  simp [hnone, Todo.ofBody, StatusOK]

theorem addTodo_getTodo_roundtrip_witness :
    sampleDB.WF ∧
    (addTodo (sampleRequest "" "") sampleDB none).1 =
      { status := 201, body := Body.json (Todo.ofBody 3 (some "Read") none (some true)).toJSON } ∧
    ∀ c2 : Context, c2.id = decimal 3 →
      (getTodo intKeysOnly c2 (addTodo (sampleRequest "" "") sampleDB none).2 none).1 =
        { status := 200,
          body := Body.json (Todo.ofBody 3 (some "Read") none (some true)).toJSON } :=
  ⟨by unfold DB.WF; decide,
   rfl,
   addTodo_getTodo_roundtrip intKeysOnly (sampleRequest "" "") sampleDB none none (some "Read")
    none (some true) 3 (by unfold DB.WF; decide) rfl rfl⟩

/-- C3: in a table satisfying its invariant, after a `deleteTodo` that
answers 204, `getTodo` with the same path id answers 404 with the message
"Todo not found"; every row the path id does not match is still answered,
unchanged and with 200, by `getTodo` for any path id that denotes its key,
the decimal rendering of the key being one. -/
theorem deleteTodo_then_getTodo (realAffinity : String → Option Int) (c : Context)
    (db : DB) (fault : Option String) (hwf : db.WF)
    (h : (deleteTodo realAffinity c db fault).1.status = 204) :
    (∀ c2 : Context, c2.id = c.id →
      (getTodo realAffinity c2 (deleteTodo realAffinity c db fault).2 none).1 =
        { status := 404,
          body := Body.json (JSON.object [("message", JSON.string "Todo not found")]) }) ∧
    ∀ r ∈ db.rows, sqliteTextKey realAffinity c.id ≠ some r.ID →
      sqliteTextKey realAffinity (decimal r.ID) = some r.ID ∧
      ∀ c2 : Context, sqliteTextKey realAffinity c2.id = some r.ID →
        (getTodo realAffinity c2 (deleteTodo realAffinity c db fault).2 none).1 =
          { status := 200, body := Body.json r.toJSON } := by
  have hf := deleteTodo_ok h
  subst hf
  obtain ⟨hs, hrows, -⟩ := hwf
  have hrows2 : (deleteTodo realAffinity c db none).2.rows =
      db.rows.filter (fun r => !decide (sqliteTextKey realAffinity c.id = some r.ID)) := rfl
  constructor
  · intro c2 hc2
    apply getTodo_missing
    intro r hr
    rw [hrows2, List.mem_filter] at hr
    rw [hc2]
    simpa using hr.2
  · intro r hr hne
    refine ⟨sqliteTextKey_decimal realAffinity (hrows r hr), ?_⟩
    intro c2 hk
    apply getTodo_found realAffinity c2 _ _ _ hk
    · rw [hrows2]
      exact hs.sublist (List.filter_sublist _)
    · rw [hrows2, List.mem_filter]
      exact ⟨hr, by simpa using hne⟩

theorem deleteTodo_then_getTodo_witness :
    sampleDB.WF ∧
    (deleteTodo intKeysOnly (sampleRequest "1" "") sampleDB none).1.status = 204 ∧
    (∀ c2 : Context, c2.id = (sampleRequest "1" "").id →
      (getTodo intKeysOnly c2 (deleteTodo intKeysOnly (sampleRequest "1" "") sampleDB none).2
        none).1 =
        { status := 404,
          body := Body.json (JSON.object [("message", JSON.string "Todo not found")]) }) ∧
    ∀ r ∈ sampleDB.rows, sqliteTextKey intKeysOnly (sampleRequest "1" "").id ≠ some r.ID →
      sqliteTextKey intKeysOnly (decimal r.ID) = some r.ID ∧
      ∀ c2 : Context, sqliteTextKey intKeysOnly c2.id = some r.ID →
        (getTodo intKeysOnly c2 (deleteTodo intKeysOnly (sampleRequest "1" "") sampleDB none).2
          none).1 = { status := 200, body := Body.json r.toJSON } :=
  ⟨by unfold DB.WF; decide, by decide,
   deleteTodo_then_getTodo intKeysOnly (sampleRequest "1" "") sampleDB none
    (by unfold DB.WF; decide) (by decide)⟩

/-- C7: after any session of successful create, update, set-completed and
delete requests that starts on the empty table, `getTodos` answers 200 with
the marshalled slice whose elements are exactly the specification's listing
(the Todos created and not deleted since, with their current values, in the
order of creation), and no two of them share an id. -/
theorem getTodos_lists_ledger (realAffinity : String → Option Int) (ops : List Op)
    (db : DB) (ledger : List Todo) (c : Context)
    (h : session realAffinity ops (DB.empty, []) = some (db, ledger)) :
    (ledger.map (fun t => t.ID)).Nodup ∧
    ∃ todos : Slice Todo,
      (getTodos c db none).1 = { status := 200, body := Body.json (marshalTodos todos) } ∧
      todos.toList = ledger := by
  obtain ⟨hl, hs⟩ := session_invariant realAffinity ops (DB.empty, []) (db, ledger) rfl
    (by simp [DB.empty]) h
  simp only at hl hs
  subst hl
  refine ⟨?_, db.rows.foldl (fun todos todo => todos.append todo) Slice.nil, rfl, ?_⟩
  · rw [List.Nodup, List.pairwise_map]
    exact hs.imp (fun hab => by omega)
  · rw [foldl_append_toList]
    rfl

theorem getTodos_lists_ledger_witness :
    session intKeysOnly sampleSession (DB.empty, []) =
      some ({ rows := [Todo.mk 1 "Read" "" false], seq := 2 }, [Todo.mk 1 "Read" "" false]) ∧
    ([Todo.mk 1 "Read" "" false].map (fun t => t.ID)).Nodup ∧
    ∃ todos : Slice Todo,
      (getTodos (sampleRequest "" "") { rows := [Todo.mk 1 "Read" "" false], seq := 2 } none).1 =
        { status := 200, body := Body.json (marshalTodos todos) } ∧
      todos.toList = [Todo.mk 1 "Read" "" false] :=
  ⟨rfl, getTodos_lists_ledger intKeysOnly sampleSession
    { rows := [Todo.mk 1 "Read" "" false], seq := 2 } [Todo.mk 1 "Read" "" false]
    (sampleRequest "" "") rfl⟩

end TestingKube
